import Mathlib

/-!
Shallow embedding of the monsti-daemon core (node storage, navigation
resolution, sidebar inheritance, and node-request dispatch) together with
proofs about the properties its specification claims.

Conventions of the embedding:

* Hierarchical node paths that the code walks with `filepath.Dir` are
  modelled as lists of path segments (`NodePath`); `filepath.Dir` becomes
  `List.dropLast`, and `parent p = p` (the code's root test) becomes
  `p.dropLast = p`, which holds exactly for the root `[]`.
* The data directory is modelled as finite maps from segment paths to file
  payloads.  YAML (un)marshalling of a node record is modelled by erasing /
  restoring the structured record: the payload stored for a node is the
  record itself with its `path` field cleared, exactly as `writeNode` does
  before calling `goyaml.Marshal`.
* Go runtime panics (index out of range on `path[1:]`, negative slice
  capacity in `make`, explicit `panic` calls) are modelled as a distinct
  failure value (`Option.none`, or a dedicated `panicked` constructor),
  never silently dropped.
* Go's `path.Clean` / `path.Join` (used by `MakeAbsolute`) are implemented
  character-by-character on the string's character list, following the Go
  library semantics for slash-separated paths.
-/

/-- A hierarchical path, as the list of its segments; `[]` is the root. -/
abbrev NodePath := List String

/-! ## Model of Go `path.Clean` and `path.Join` -/

/-- Split a character list at each slash character (model of splitting a
slash-separated path into its elements). -/
def splitSegsL (cur : List Char) : List Char → List (List Char)
  | [] => [cur.reverse]
  | c :: cs => if c = '/' then cur.reverse :: splitSegsL [] cs else splitSegsL (c :: cur) cs

/-- The nonempty slash-separated elements of a string. -/
def splitSegs (s : String) : List String :=
  ((splitSegsL [] s.data).filter (fun l => l ≠ [])).map String.mk

/-- Join path elements back with slashes. -/
def joinSegs : List String → String
  | [] => ""
  | [x] => x
  | x :: xs => x ++ "/" ++ joinSegs xs

/-- Whether the first character of the string is a slash: model of the Go
byte test `s[0] == '/'` on a nonempty string (all paths involved are
ASCII, so byte and character agree). -/
def startsSlash (s : String) : Bool :=
  match s.data with
  | [] => false
  | c :: _ => c == '/'

/-- One step of Go `path.Clean`'s element processing: drop `.`, let `..`
cancel the preceding element (or be kept, resp. dropped at the root of a
rooted path), keep anything else.  The stack holds the processed elements
in reverse. -/
def pushSeg (rooted : Bool) (stack : List String) (seg : String) : List String :=
  if seg = "." then stack
  else if seg = ".." then
    match stack with
    | [] => if rooted then [] else [".."]
    | top :: rest => if top = ".." then ".." :: top :: rest else rest
  else seg :: stack

/-- Model of Go `path.Clean` for slash-separated paths. -/
def goClean (s : String) : String :=
  if s = "" then "."
  else
    let body := joinSegs (((splitSegs s).foldl (pushSeg (startsSlash s)) []).reverse)
    if startsSlash s then "/" ++ body
    else if body = "" then "." else body

/-- Model of Go `path.Join` on two elements: drop empty elements, join the
rest with a slash and clean the result. -/
def goJoin (a b : String) : String :=
  if a = "" then (if b = "" then "" else goClean b)
  else goClean (a ++ "/" ++ b)

/-! ## Navigation data model (`navLink`, `navigation` in node.go) -/

/-- A link of the navigation (`navLink` in node.go): display name, target
path and the per-request active flag. -/
structure NavLink where
  name : String
  target : String
  active : Bool
deriving DecidableEq

/-- The parsed content of a `navigation.yaml` file.  `parsed = none` means
the file exists but `goyaml.Unmarshal` fails on it (the code ignores that
error and keeps the nil slice); `parsed = some l` means it unmarshals to
the link list `l`. -/
structure NavFile where
  parsed : Option (List NavLink)
deriving DecidableEq

/-- The active-marking loop of `getNav`: set the active flag of the first
link whose target equals `active` and stop (the loop breaks after the
first match). -/
def markActive (active : String) : List NavLink → List NavLink
  | [] => []
  | l :: ls =>
    if l.target = active then { l with active := true } :: ls
    else l :: markActive active ls

/-- The navigation links held by the `navLinks` variable of `getNav` after
`goyaml.Unmarshal(content, &navLinks)`: `none` is Go's nil slice (no
content read, or an unmarshal error that the code discards). -/
def navLinksOf : Option NavFile → Option (List NavLink)
  | none => none
  | some f => f.parsed

/-- The read-and-walk loop of `getNav`: read `navigation.yaml` at the
current path; on failure move to the parent and stop (without reading) if
the parent is the root or the search is not recursive.  Returns the
content read (if any) and the `navRoot` value, which the code sets to the
path where content was found only when `recursive` holds. -/
def navSearch (fs : NodePath → Option NavFile) (recursive : Bool) (p : NodePath) :
    Option NavFile × Option NodePath :=
  match fs p with
  | some f => (some f, if recursive then some p else none)
  | none =>
    if recursive = false ∨ p.dropLast.dropLast = p.dropLast then (none, none)
    else navSearch fs recursive p.dropLast
termination_by p.length
decreasing_by
  rename_i hcond
  rw [not_or] at hcond
  have hp : p ≠ [] := by
    rintro rfl
    exact hcond.2 rfl
  have h1 : p.dropLast.length = p.length - 1 := List.length_dropLast p
  have h2 : 0 < p.length := List.length_pos.mpr hp
  omega

/-- Model of `getNav` (node.go): walk for a `navigation.yaml`, unmarshal
it (ignoring parse errors), mark the first active link, and normalize a
zero-length link list to an explicitly empty (non-nil) navigation exactly
when the node itself had a navigation file (`hasNav`).  The first
component is the returned navigation (`none` = Go nil), the second the
`navRoot` return value (`none` = empty string). -/
def getNavGo (fs : NodePath → Option NavFile) (nodePath : NodePath) (active : String)
    (recursive : Bool) : Option (List NavLink) × Option NodePath :=
  let hasNav := (fs nodePath).isSome
  let found := navSearch fs recursive nodePath
  let marked := (navLinksOf found.1).map (markActive active)
  if (marked.getD []).isEmpty && hasNav then (some [], found.2)
  else (marked, found.2)

/-- The flag-clearing loop of `navigation.Dump`. -/
def clearActive (nav : List NavLink) : List NavLink :=
  nav.map (fun l => { l with active := false })

/-- Model of `navigation.Remove` (node.go): the code first allocates
`make(navigation, 0, len(nav)-1)`; on an empty navigation the capacity is
`-1`, which is a Go runtime panic (`none` here).  Otherwise it keeps, in
order, every link whose target differs from the argument. -/
def navRemoveGo (nav : List NavLink) (target : String) : Option (List NavLink) :=
  if nav.length = 0 then none
  else some (nav.filter (fun v => v.target != target))

/-- Model of `navigation.Add` (node.go): append, without deduplication. -/
def navAddGo (nav : List NavLink) (name target : String) : List NavLink :=
  nav ++ [{ name := name, target := target, active := false }]

/-- One link of `navigation.MakeAbsolute`: reading `Target[0]` of an empty
target is a Go index-out-of-range panic (`none`); a target starting with a
slash is untouched; any other target is joined onto the root. -/
def makeAbsoluteLink (root : String) (l : NavLink) : Option NavLink :=
  if l.target = "" then none
  else if startsSlash l.target then some l
  else some { l with target := goJoin root l.target }

/-- Effectful map over a list in which an element-wise panic aborts the
whole operation (the Go loop mutates in place but a panic unwinds past the
function, so no completed navigation is produced). -/
def mapMOpt (f : α → Option β) : List α → Option (List β)
  | [] => some []
  | x :: xs =>
    match f x with
    | none => none
    | some y =>
      match mapMOpt f xs with
      | none => none
      | some ys => some (y :: ys)

/-- Model of `navigation.MakeAbsolute` (node.go). -/
def makeAbsoluteGo (root : String) (nav : List NavLink) : Option (List NavLink) :=
  mapMOpt (makeAbsoluteLink root) nav

/-! ## Sidebar inheritance (`getSidebar` in node.go) -/

/-- Model of `getSidebar` (node.go), the upward attribute search
(`resolveInherited` of the spec): read `sidebar.html` at the current path;
on failure stop with the empty string if the path equals its parent (root
reached), otherwise retry at the parent. -/
def getSidebarGo (fs : NodePath → Option String) (p : NodePath) : String :=
  match fs p with
  | some content => content
  | none =>
    if p.dropLast = p then ""
    else getSidebarGo fs p.dropLast
termination_by p.length
decreasing_by
  rename_i hne
  have hp : p ≠ [] := by
    rintro rfl
    exact hne rfl
  have h1 : p.dropLast.length = p.length - 1 := List.length_dropLast p
  have h2 : 0 < p.length := List.length_pos.mpr hp
  omega

/-! ## Node record storage (`lookupNode`, `writeNode` in node.go) -/

/-- A content item record (`client.Node`): absolute path plus the
persisted attributes. -/
structure NodeRecord where
  path : String
  typ : String
  title : String
  created : String
  createdBy : String
  lastUpdate : String
  lastUpdateBy : String
deriving DecidableEq

/-- What `writeNode` marshals: the record with its path field cleared
(`node.Path = ""` right before `goyaml.Marshal`). -/
def erasePath (n : NodeRecord) : NodeRecord :=
  { n with path := "" }

/-- The storage location of a node's directory relative to the data root:
the slash elements of the node path with its first character removed,
modelling `filepath.Join(root, path[1:], ...)` for the dot-free absolute
paths the system uses. -/
def storageSegs (p : String) : NodePath :=
  splitSegs (String.mk p.data.tail)

/-- First match in an association list keyed by segment paths. -/
def lookupKey : List (NodePath × α) → NodePath → Option α
  | [], _ => none
  | (k, v) :: rest, q => if k = q then some v else lookupKey rest q

/-- The data directory: the set of existing directories and the stored
`node.yaml` payloads, both keyed by segment path relative to the root. -/
structure FS where
  dirs : List NodePath
  nodes : List (NodePath × NodeRecord)
deriving DecidableEq

/-- Outcome of `writeNode`: an updated data directory, or a Go panic
(`writeNode` panics when `os.Mkdir` fails with anything but an
already-exists error, and on `path[1:]` of an empty path). -/
inductive WriteResult
  | ok (fs : FS)
  | panicked
deriving DecidableEq

/-- Model of `writeNode` (node.go): clear the record's path, then
`os.Mkdir` the node's directory — a no-op if it already exists, a success
if its parent exists, and otherwise a failure that the code turns into a
panic (`os.Mkdir` creates a single level; missing deeper ancestors give a
non-IsExist error) — and finally write the `node.yaml` payload. -/
def writeNodeGo (node : NodeRecord) (fs : FS) : WriteResult :=
  if node.path = "" then WriteResult.panicked
  else
    let d := storageSegs node.path
    if d ∈ fs.dirs then
      WriteResult.ok { fs with nodes := (d, erasePath node) :: fs.nodes }
    else if d.dropLast ∈ fs.dirs then
      WriteResult.ok { dirs := d :: fs.dirs, nodes := (d, erasePath node) :: fs.nodes }
    else WriteResult.panicked

/-- Outcome of `lookupNode`: the record, a returned read/parse error, or a
panic (on `path[1:]` of an empty path). -/
inductive LookupResult
  | found (n : NodeRecord)
  | notFound
  | panicked
deriving DecidableEq

/-- Model of `lookupNode` (node.go): read the `node.yaml` payload at the
path's storage location and return it with its path field set from the
argument, never from the stored payload. -/
def lookupNodeGo (fs : FS) (p : String) : LookupResult :=
  if p = "" then LookupResult.panicked
  else
    match lookupKey fs.nodes (storageSegs p) with
    | none => LookupResult.notFound
    | some st => LookupResult.found { st with path := p }

/-! ## Navigation persistence (`navigation.Dump` in node.go) -/

/-- Model of `navigation.Dump` (node.go): clear every link's active flag,
marshal, and write the `navigation.yaml` payload at the node's storage
location (`nodePath[1:]` of an empty path is a Go panic, `none`). -/
def dumpNavGo (nav : List NavLink) (nodePath : String)
    (store : List (NodePath × NavFile)) : Option (List (NodePath × NavFile)) :=
  if nodePath = "" then none
  else some ((storageSegs nodePath, ⟨some (clearActive nav)⟩) :: store)

/-! ## Dispatch and response processing (`RequestNode`, `ProcessNodeResponse`) -/

/-- A worker response (`client.Response`): body, redirect target, raw
passthrough flag and the optional updated node record. -/
structure GoResponse where
  body : String
  redirect : String
  raw : Bool
  node : Option NodeRecord
deriving DecidableEq

/-- The zero value of `client.Response`, which a receive on a closed
channel yields in Go. -/
def zeroResponse : GoResponse :=
  { body := "", redirect := "", raw := false, node := none }

/-- The externally visible outcome `ProcessNodeResponse` decides on: the
generic internal-error page, a redirect, a raw body passed through, or a
body rendered in the master template around the given node. -/
inductive NodeOutcome
  | appError
  | redirectTo (target : String)
  | rawBody (body : String)
  | page (body : String) (node : NodeRecord)
deriving DecidableEq

/-- The node record a response leaves in use (lines 148-152 of the
handler): an updated record has its path forced back to the original
node's path; otherwise the original node stays. -/
def forcedNode (res : GoResponse) (node : NodeRecord) : NodeRecord :=
  match res.node with
  | some n => { n with path := node.path }
  | none => node

/-- Model of `ProcessNodeResponse`: a response with neither body nor
redirect is the generic application error; a redirect wins over a body; a
raw response passes the body through; otherwise the body is rendered in
the page frame around the (path-forced) node. -/
def processNodeResponse (res : GoResponse) (node : NodeRecord) : NodeOutcome :=
  if res.body = "" ∧ res.redirect = "" then NodeOutcome.appError
  else if res.redirect ≠ "" then NodeOutcome.redirectTo res.redirect
  else if res.raw then NodeOutcome.rawBody res.body
  else NodeOutcome.page res.body (forcedNode res node)

/-- The dispatcher's receive `res := <-c` on the ticket's reply channel:
a sent response (`some`), or — when the worker process died and the
channel was closed without a value — the zero value of the response type. -/
def recvResponse : Option GoResponse → GoResponse
  | some r => r
  | none => zeroResponse

/-- Model of the tail of `RequestNode`: wait on the reply channel and feed
whatever the receive produced to `ProcessNodeResponse`. -/
def requestNodeGo (reply : Option GoResponse) (node : NodeRecord) : NodeOutcome :=
  processNodeResponse (recvResponse reply) node

/-! ## Concrete sample data used by the witnesses -/

/-- Sample record at path `/a`. -/
def nodeA : NodeRecord := ⟨"/a", "document", "T", "c", "cb", "lu", "lub"⟩

/-- Sample record two levels deep. -/
def nodeDeep : NodeRecord := ⟨"/a/b", "document", "T", "", "", "", ""⟩

/-- Sample record for the dispatcher. -/
def fooNode : NodeRecord := ⟨"/foo", "document", "FooNode", "", "", "", ""⟩

/-- A data directory holding only the root directory. -/
def fsEmpty : FS := ⟨[[]], []⟩

/-- The data directory after writing `nodeA` into `fsEmpty`. -/
def fsAfterA : FS := ⟨[["a"], []], [(["a"], erasePath nodeA)]⟩

/-- A response carrying an updated record that tries to relocate the item
to `/evil`. -/
def relocatingResponse : GoResponse :=
  ⟨"body", "", false, some ⟨"/evil", "document", "T", "", "", "", ""⟩⟩

/-- The handler's original node for the relocation sample. -/
def origNode : NodeRecord := ⟨"/orig", "document", "Orig", "", "", "", ""⟩

/-- A navigation store holding a single navigation file at `["nav"]` with
two links sharing the target `t`. -/
def navFsTwo : NodePath → Option NavFile :=
  fun q => if q = ["nav"] then some ⟨some [⟨"a", "t", false⟩, ⟨"b", "t", false⟩]⟩ else none

/-- A navigation store holding a single unparsable navigation file. -/
def navFsBad : NodePath → Option NavFile :=
  fun q => if q = ["nav"] then some ⟨none⟩ else none

/-! ## Helper lemmas on strings and cleaned paths -/

theorem startsSlash_ne_empty (s : String) (h : startsSlash s = true) : s ≠ "" := by
  intro he
  subst he
  exact absurd h (by decide)

theorem startsSlash_slash_append (x : String) : startsSlash ("/" ++ x) = true := rfl

theorem startsSlash_append_left (a b : String) (h : startsSlash a = true) :
    startsSlash (a ++ b) = true := by
  cases a with
  | mk d =>
    cases d with
    | nil => exact absurd h (by decide)
    | cons c cs => exact h

theorem goClean_rooted (s : String) (h : startsSlash s = true) :
    startsSlash (goClean s) = true := by
  have hne : s ≠ "" := startsSlash_ne_empty s h
  simp only [goClean, if_neg hne, h, if_true]
  exact startsSlash_slash_append _

theorem goJoin_rooted (a b : String) (h : startsSlash a = true) :
    startsSlash (goJoin a b) = true := by
  have hne : a ≠ "" := startsSlash_ne_empty a h
  simp only [goJoin, if_neg hne]
  exact goClean_rooted _ (startsSlash_append_left _ _ (startsSlash_append_left _ _ h))

theorem makeAbsoluteLink_of_absolute (root : String) (l : NavLink)
    (h : startsSlash l.target = true) : makeAbsoluteLink root l = some l := by
  unfold makeAbsoluteLink
  rw [if_neg (startsSlash_ne_empty _ h)]
  simp [h]

theorem makeAbsoluteLink_rooted (root : String) (l l₁ : NavLink)
    (hroot : startsSlash root = true) (h : makeAbsoluteLink root l = some l₁) :
    startsSlash l₁.target = true := by
  unfold makeAbsoluteLink at h
  by_cases h0 : l.target = ""
  · simp [h0] at h
  · rw [if_neg h0] at h
    by_cases habs : startsSlash l.target = true
    · rw [habs] at h
      simp at h
      rw [← h]
      exact habs
    · simp only [Bool.not_eq_true] at habs
      rw [habs] at h
      simp at h
      rw [← h]
      exact goJoin_rooted _ _ hroot

theorem makeAbsoluteGo_of_absolute (root : String) :
    ∀ nav : List NavLink, (∀ l ∈ nav, startsSlash l.target = true) →
      makeAbsoluteGo root nav = some nav
  | [], _ => rfl
  | x :: xs, h => by
    have hx := makeAbsoluteLink_of_absolute root x (h x (List.mem_cons_self x xs))
    have hxs := makeAbsoluteGo_of_absolute root xs (fun l hl => h l (List.mem_cons_of_mem x hl))
    unfold makeAbsoluteGo mapMOpt
    rw [hx]
    unfold makeAbsoluteGo at hxs
    rw [hxs]

theorem makeAbsoluteGo_twice_some (root : String) (hroot : startsSlash root = true) :
    ∀ nav nav₁ : List NavLink, makeAbsoluteGo root nav = some nav₁ →
      makeAbsoluteGo root nav₁ = some nav₁
  | [], nav₁, h => by
    simp only [makeAbsoluteGo, mapMOpt] at h
    rw [← Option.some_inj.mp h]
    rfl
  | x :: xs, nav₁, h => by
    unfold makeAbsoluteGo mapMOpt at h
    cases hx : makeAbsoluteLink root x with
    | none => rw [hx] at h; simp at h
    | some y =>
      rw [hx] at h
      cases hxs : mapMOpt (makeAbsoluteLink root) xs with
      | none => rw [hxs] at h; simp at h
      | some ys =>
        rw [hxs] at h
        simp only [Option.some_inj] at h
        have hy : startsSlash y.target = true := makeAbsoluteLink_rooted root x y hroot hx
        have hys := makeAbsoluteGo_twice_some root hroot xs ys hxs
        rw [← h]
        unfold makeAbsoluteGo mapMOpt
        rw [makeAbsoluteLink_of_absolute root y hy]
        unfold makeAbsoluteGo at hys
        rw [hys]

/-! ## Claim theorems -/

/-- Claim C6 (amended): for a base path that begins with the path
separator, makeAbsolute is idempotent — if one application succeeds, a
second application returns the same navigation unchanged (and a panic of
the first application propagates identically through the second); in
particular, applying it to an already-absolute navigation changes
nothing.  For a relative base, idempotence fails (see the
counterexample). -/
theorem makeAbsolute_idempotent_of_rooted_base (root : String) (nav : List NavLink)
    (hroot : startsSlash root = true) :
    (makeAbsoluteGo root nav).bind (makeAbsoluteGo root) = makeAbsoluteGo root nav
    ∧ ((∀ l ∈ nav, startsSlash l.target = true) → makeAbsoluteGo root nav = some nav) := by
  constructor
  · cases h : makeAbsoluteGo root nav with
    | none => rfl
    | some nav₁ =>
      show makeAbsoluteGo root nav₁ = some nav₁
      exact makeAbsoluteGo_twice_some root hroot nav nav₁ h
  · exact makeAbsoluteGo_of_absolute root nav

/-- Witness for C6 at base `/base` and a navigation with one relative and
one absolute target. -/
theorem makeAbsolute_idempotent_of_rooted_base_witness :
    startsSlash "/base" = true
    ∧ ((makeAbsoluteGo "/base" [⟨"n", "x", false⟩, ⟨"m", "/abs", false⟩]).bind
          (makeAbsoluteGo "/base")
        = makeAbsoluteGo "/base" [⟨"n", "x", false⟩, ⟨"m", "/abs", false⟩]
      ∧ ((∀ l ∈ ([⟨"n", "x", false⟩, ⟨"m", "/abs", false⟩] : List NavLink),
            startsSlash l.target = true) →
          makeAbsoluteGo "/base" [⟨"n", "x", false⟩, ⟨"m", "/abs", false⟩]
            = some [⟨"n", "x", false⟩, ⟨"m", "/abs", false⟩])) :=
  ⟨by decide,
   makeAbsolute_idempotent_of_rooted_base "/base"
     [⟨"n", "x", false⟩, ⟨"m", "/abs", false⟩] (by decide)⟩

/-- Claim C6 counterexample: with the relative base `a` and the single
relative target `b`, one application yields target `a/b` and a second
application yields `a/a/b` — applying makeAbsolute twice differs from
applying it once, so idempotence does not hold for every base path. -/
theorem makeAbsolute_not_idempotent_relative_base :
    (makeAbsoluteGo "a" [⟨"n", "b", false⟩]).bind (makeAbsoluteGo "a")
      ≠ makeAbsoluteGo "a" [⟨"n", "b", false⟩] := by decide

/-- Claim C5 (code side of the bug): on the empty navigation, Remove's
allocation `make(navigation, 0, len(nav)-1)` has capacity `-1` and raises
a Go runtime panic, instead of the no-op without error that the claim
(and the function's own purpose, removing every matching link) requires. -/
theorem navigation_remove_empty_panics : navRemoveGo [] "child" = none := rfl

/-- Claim C1 (code side of the bug): when the ticket's reply channel is
closed without a value, the dispatcher receives the zero-value Response
and produces the same generic application-error outcome as for a
malformed (empty) response a live worker sends — the request fails
visibly and is not an empty success, but there is no distinct WorkerLost
outcome in the code. -/
theorem closed_reply_indistinguishable_from_malformed :
    requestNodeGo none fooNode = NodeOutcome.appError
    ∧ requestNodeGo (some zeroResponse) fooNode = NodeOutcome.appError :=
  ⟨by decide, by decide⟩

/-- Claim C8: whenever the response carries an updated record and the
handler reaches the page outcome (the only outcome that uses the item),
the node in use is the updated record with its path forced back to the
original node's path — a worker cannot relocate an item via its
response. -/
theorem processNodeResponse_forces_path (res : GoResponse) (node n nd : NodeRecord)
    (b : String) (hn : res.node = some n)
    (h : processNodeResponse res node = NodeOutcome.page b nd) :
    nd = { n with path := node.path } := by
  unfold processNodeResponse at h
  split at h
  · exact absurd h (by simp)
  · split at h
    · exact absurd h (by simp)
    · split at h
      · exact absurd h (by simp)
      · injection h with h1 h2
        rw [← h2]
        unfold forcedNode
        rw [hn]

/-- Witness for C8: a response trying to relocate the `/orig` node to
`/evil` ends up used at the original path `/orig`. -/
theorem processNodeResponse_forces_path_witness :
    relocatingResponse.node = some ⟨"/evil", "document", "T", "", "", "", ""⟩
    ∧ processNodeResponse relocatingResponse origNode
        = NodeOutcome.page "body" ⟨"/orig", "document", "T", "", "", "", ""⟩
    ∧ (⟨"/orig", "document", "T", "", "", "", ""⟩ : NodeRecord)
        = { (⟨"/evil", "document", "T", "", "", "", ""⟩ : NodeRecord) with
            path := origNode.path } :=
  ⟨by decide, by decide,
   processNodeResponse_forces_path relocatingResponse origNode
     ⟨"/evil", "document", "T", "", "", "", ""⟩
     ⟨"/orig", "document", "T", "", "", "", ""⟩ "body" (by decide) (by decide)⟩

/-- Claim C2: writing a record with a nonempty path and looking the same
path up returns a record equal to the input; the persisted payload holds
the record with its path field cleared (the path is never stored), and
the returned record's path comes from the lookup argument. -/
theorem writeNode_lookupNode_roundtrip (fs fs' : FS) (node : NodeRecord)
    (hp : node.path ≠ "") (hw : writeNodeGo node fs = WriteResult.ok fs') :
    lookupNodeGo fs' node.path = LookupResult.found node
    ∧ lookupKey fs'.nodes (storageSegs node.path) = some (erasePath node)
    ∧ (erasePath node).path = "" := by
  have hnodes : fs'.nodes = (storageSegs node.path, erasePath node) :: fs.nodes := by
    unfold writeNodeGo at hw
    rw [if_neg hp] at hw
    dsimp only at hw
    split at hw
    · injection hw with h
      rw [← h]
    · split at hw
      · injection hw with h
        rw [← h]
      · exact absurd hw (by simp)
  refine ⟨?_, ?_, rfl⟩
  · unfold lookupNodeGo
    rw [if_neg hp, hnodes]
    unfold lookupKey
    rw [if_pos rfl]
    exact congrArg LookupResult.found (by cases node; rfl)
  · rw [hnodes]
    unfold lookupKey
    rw [if_pos rfl]

/-- Witness for C2: write the `/a` record into the root-only directory
and look `/a` up again. -/
theorem writeNode_lookupNode_roundtrip_witness :
    nodeA.path ≠ ""
    ∧ writeNodeGo nodeA fsEmpty = WriteResult.ok fsAfterA
    ∧ (lookupNodeGo fsAfterA nodeA.path = LookupResult.found nodeA
      ∧ lookupKey fsAfterA.nodes (storageSegs nodeA.path) = some (erasePath nodeA)
      ∧ (erasePath nodeA).path = "") :=
  ⟨by decide, by decide,
   writeNode_lookupNode_roundtrip fsEmpty fsAfterA nodeA (by decide) (by decide)⟩

/-- Claim C9 counterexample: writing the record at `/a/b` into a data
directory holding only the root panics (os.Mkdir creates a single level
and its failure on the missing intermediate `/a` is turned into a panic),
instead of creating all absent intermediate directories and instead of
failing with an ordinary storage error. -/
theorem writeNode_missing_intermediate_panics :
    writeNodeGo nodeDeep fsEmpty = WriteResult.panicked := by decide

/-- Claim C9 (amended): writeNode persists the record at its path,
creating at most the one missing directory level of the storage location:
when the location already exists, or only its last level is missing, the
write succeeds (no error on an existing location), stores the payload
with the path cleared, and keeps every existing directory.  When deeper
intermediate directories are absent it aborts abruptly (see the
counterexample) instead of creating them or returning a storage error. -/
theorem writeNode_creates_single_dir (node : NodeRecord) (fs : FS)
    (hp : node.path ≠ "")
    (hdir : storageSegs node.path ∈ fs.dirs ∨ (storageSegs node.path).dropLast ∈ fs.dirs) :
    ∃ fs', writeNodeGo node fs = WriteResult.ok fs'
      ∧ lookupKey fs'.nodes (storageSegs node.path) = some (erasePath node)
      ∧ ∀ d ∈ fs.dirs, d ∈ fs'.dirs := by
  unfold writeNodeGo
  rw [if_neg hp]
  dsimp only
  by_cases h1 : storageSegs node.path ∈ fs.dirs
  · rw [if_pos h1]
    refine ⟨_, rfl, ?_, ?_⟩
    · unfold lookupKey
      rw [if_pos rfl]
    · intro d hd
      exact hd
  · rw [if_neg h1, if_pos (hdir.resolve_left h1)]
    refine ⟨_, rfl, ?_, ?_⟩
    · unfold lookupKey
      rw [if_pos rfl]
    · intro d hd
      exact List.mem_cons_of_mem _ hd

/-- Witness for C9 (amended): writing `/a` into the root-only directory
succeeds by creating the single missing level. -/
theorem writeNode_creates_single_dir_witness :
    nodeA.path ≠ ""
    ∧ (storageSegs nodeA.path ∈ fsEmpty.dirs ∨ (storageSegs nodeA.path).dropLast ∈ fsEmpty.dirs)
    ∧ (∃ fs', writeNodeGo nodeA fsEmpty = WriteResult.ok fs'
        ∧ lookupKey fs'.nodes (storageSegs nodeA.path) = some (erasePath nodeA)
        ∧ ∀ d ∈ fsEmpty.dirs, d ∈ fs'.dirs) :=
  ⟨by decide, by decide, writeNode_creates_single_dir nodeA fsEmpty (by decide) (by decide)⟩

/-- Claim C7: whatever active flags the in-memory navigation carries,
the navigation payload that Dump persists at the node's storage location
has every link's active flag cleared. -/
theorem dump_clears_active (nav : List NavLink) (p : String)
    (store store₁ : List (NodePath × NavFile)) (f : NavFile) (l : List NavLink)
    (hd : dumpNavGo nav p store = some store₁)
    (hl : lookupKey store₁ (storageSegs p) = some f)
    (hp : f.parsed = some l) :
    ∀ e ∈ l, e.active = false := by
  unfold dumpNavGo at hd
  by_cases h0 : p = ""
  · rw [if_pos h0] at hd
    exact absurd hd (by simp)
  · rw [if_neg h0] at hd
    injection hd with hd
    rw [← hd] at hl
    unfold lookupKey at hl
    rw [if_pos rfl] at hl
    injection hl with hl
    rw [← hl] at hp
    injection hp with hp
    rw [← hp]
    intro e he
    unfold clearActive at he
    rw [List.mem_map] at he
    obtain ⟨x, -, h⟩ := he
    rw [← h]

/-- Witness for C7: dumping a navigation whose single link is active
stores it with the flag cleared. -/
theorem dump_clears_active_witness :
    dumpNavGo [⟨"n", "t", true⟩] "/a" [] = some [(["a"], ⟨some [⟨"n", "t", false⟩]⟩)]
    ∧ lookupKey [(["a"], (⟨some [⟨"n", "t", false⟩]⟩ : NavFile))] (storageSegs "/a")
        = some ⟨some [⟨"n", "t", false⟩]⟩
    ∧ (⟨some [⟨"n", "t", false⟩]⟩ : NavFile).parsed = some [⟨"n", "t", false⟩]
    ∧ ∀ e ∈ ([⟨"n", "t", false⟩] : List NavLink), e.active = false :=
  ⟨by decide, by decide, by decide,
   dump_clears_active [⟨"n", "t", true⟩] "/a" [] [(["a"], ⟨some [⟨"n", "t", false⟩]⟩)]
     ⟨some [⟨"n", "t", false⟩]⟩ [⟨"n", "t", false⟩] (by decide) (by decide) (by decide)⟩

theorem navSearch_found (fs : NodePath → Option NavFile) (recursive : Bool) (p : NodePath)
    (f : NavFile) (h : fs p = some f) :
    navSearch fs recursive p = (some f, if recursive then some p else none) := by
  unfold navSearch
  rw [h]

theorem isEmpty_append_cons (l₁ : List NavLink) (a : NavLink) (r : List NavLink) :
    (l₁ ++ a :: r).isEmpty = false := by
  cases l₁ <;> rfl

/-- Claim C10: when a navigation file exists at the given path but does
not parse, getNav ignores the unmarshal error, keeps the nil link list,
and the hasNav normalization turns it into the explicitly empty (non-nil)
navigation — no error is surfaced. -/
theorem getNav_unparsable_yields_empty (fs : NodePath → Option NavFile) (p : NodePath)
    (act : String) (recursive : Bool) (f : NavFile)
    (hf : fs p = some f) (hbad : f.parsed = none) :
    getNavGo fs p act recursive = (some [], if recursive then some p else none) := by
  unfold getNavGo
  rw [navSearch_found fs recursive p f hf, hf]
  simp [navLinksOf, hbad]

/-- Witness for C10: an unparsable navigation file at `["nav"]` resolves
to the explicitly empty navigation. -/
theorem getNav_unparsable_yields_empty_witness :
    navFsBad ["nav"] = some ⟨none⟩
    ∧ (⟨none⟩ : NavFile).parsed = none
    ∧ getNavGo navFsBad ["nav"] "t" true = (some [], if true then some ["nav"] else none) :=
  ⟨by decide, by decide,
   getNav_unparsable_yields_empty navFsBad ["nav"] "t" true ⟨none⟩ (by decide) (by decide)⟩

theorem markActive_first (t : String) :
    ∀ (l₁ : List NavLink) (e : NavLink) (rest : List NavLink),
      (∀ x ∈ l₁, x.target ≠ t) → e.target = t →
      markActive t (l₁ ++ e :: rest) = l₁ ++ { e with active := true } :: rest
  | [], e, rest, _, he => by
    show markActive t (e :: rest) = { e with active := true } :: rest
    simp only [markActive, if_pos he]
  | a :: as, e, rest, h₁, he => by
    have ha : a.target ≠ t := h₁ a (List.mem_cons_self a as)
    show markActive t (a :: (as ++ e :: rest)) = a :: (as ++ { e with active := true } :: rest)
    simp only [markActive, if_neg ha]
    rw [markActive_first t as e rest (fun x hx => h₁ x (List.mem_cons_of_mem a hx)) he]

/-- Claim C4: when the parsed navigation has (at least) two links with
the active target — a first match `e₁` preceded only by non-matching
links, and a later match `e₂` — getNav marks exactly the first match and
returns every other link, in particular the later equal match `e₂`,
unchanged (still unmarked). -/
theorem getNav_marks_first_match_only (fs : NodePath → Option NavFile) (p : NodePath)
    (act : String) (recursive : Bool) (f : NavFile) (l₁ : List NavLink) (e₁ e₂ : NavLink)
    (l₂ l₃ : List NavLink)
    (hf : fs p = some f)
    (hparse : f.parsed = some (l₁ ++ e₁ :: (l₂ ++ e₂ :: l₃)))
    (hfirst : ∀ x ∈ l₁, x.target ≠ act)
    (he₁ : e₁.target = act) (he₂ : e₂.target = act) (hact : e₂.active = false) :
    (getNavGo fs p act recursive).1
      = some (l₁ ++ { e₁ with active := true } :: (l₂ ++ e₂ :: l₃)) := by
  unfold getNavGo
  rw [navSearch_found fs recursive p f hf, hf]
  dsimp only
  rw [show navLinksOf (some f) = f.parsed from rfl, hparse]
  rw [Option.map_some']
  rw [markActive_first act l₁ e₁ (l₂ ++ e₂ :: l₃) hfirst he₁]
  rw [Option.getD_some, Option.isSome_some, Bool.and_true, isEmpty_append_cons]
  rfl

/-- Witness for C4: a navigation with two links on target `t` resolves
with only the first link marked. -/
theorem getNav_marks_first_match_only_witness :
    navFsTwo ["nav"] = some ⟨some [⟨"a", "t", false⟩, ⟨"b", "t", false⟩]⟩
    ∧ (⟨some [⟨"a", "t", false⟩, ⟨"b", "t", false⟩]⟩ : NavFile).parsed
        = some ([] ++ ⟨"a", "t", false⟩ :: ([] ++ ⟨"b", "t", false⟩ :: []))
    ∧ (∀ x ∈ ([] : List NavLink), x.target ≠ "t")
    ∧ (⟨"a", "t", false⟩ : NavLink).target = "t"
    ∧ (⟨"b", "t", false⟩ : NavLink).target = "t"
    ∧ (⟨"b", "t", false⟩ : NavLink).active = false
    ∧ (getNavGo navFsTwo ["nav"] "t" false).1
        = some ([] ++ { (⟨"a", "t", false⟩ : NavLink) with active := true }
            :: ([] ++ ⟨"b", "t", false⟩ :: [])) :=
  ⟨by decide, by decide, by decide, by decide, by decide, by decide,
   getNav_marks_first_match_only navFsTwo ["nav"] "t" false
     ⟨some [⟨"a", "t", false⟩, ⟨"b", "t", false⟩]⟩ [] ⟨"a", "t", false⟩ ⟨"b", "t", false⟩
     [] [] (by decide) (by decide) (by decide) (by decide) (by decide) (by decide)⟩

/-- Claim C3: the upward sidebar search terminates — it is a total
function here, structurally descending to the parent — and when no
ancestor of the path (the path itself, every parent, and the root) has
sidebar content it returns the empty string, the walk stopping exactly
when the parent of the current path equals the current path. -/
theorem getSidebar_none_without_ancestor (fs : NodePath → Option String) (p : NodePath)
    (h : ∀ k, fs (p.take k) = none) : getSidebarGo fs p = "" := by
  have hp : fs p = none := by
    have h0 := h p.length
    rwa [List.take_length] at h0
  unfold getSidebarGo
  rw [hp]
  by_cases hr : p.dropLast = p
  · rw [if_pos hr]
  · rw [if_neg hr]
    refine getSidebar_none_without_ancestor fs p.dropLast (fun k => ?_)
    rw [List.dropLast_eq_take, List.take_take]
    exact h _
termination_by p.length
decreasing_by
  have hp0 : p ≠ [] := by
    rintro rfl
    exact hr rfl
  have h1 : p.dropLast.length = p.length - 1 := List.length_dropLast p
  have h2 : 0 < p.length := List.length_pos.mpr hp0
  omega

/-- Witness for C3: searching a data directory with no sidebar files at
all from the path `a/b` yields the empty result. -/
theorem getSidebar_none_without_ancestor_witness :
    (∀ k, (fun _ : NodePath => (none : Option String)) ((["a", "b"] : NodePath).take k) = none)
    ∧ getSidebarGo (fun _ => none) ["a", "b"] = "" :=
  ⟨fun _ => rfl,
   getSidebar_none_without_ancestor (fun _ => none) ["a", "b"] (fun _ => rfl)⟩
